import Mathlib

/-!
Verification of the 1-D bond-based peridynamic bar simulator
(`1dbar_code.ipynb`) against its natural-language specification.

The notebook's core loop is embedded shallowly over `ℚ`:
machine floats become exact rationals (every comparison the claims
depend on is far from a floating-point tie, and the coordinates,
boundary values and material constants in play are exactly
representable), fallible operations (array indexing, division) return
`Except Err`, and the mutable rolling buffers become explicit state
passing.
-/

/-- Failure modes of the simulation loop: `idx` is an out-of-range read
of the boundary-condition array `u_applied` (Python `IndexError`),
`div` is a division by zero inside the force evaluation, and
`unassigned` is a use of the loop variable `acceleration` before any
assignment (Python `NameError`; see `accelE` for why this per-step
rendering of the global variable is run-equivalent to the source). -/
inductive Err
  | idx
  | div
  | unassigned
deriving DecidableEq

/-- Division that fails (as the spec's DegenerateGeometry error) on a
zero denominator, modelling the notebook's `/` at the two places where
the divisor can vanish. -/
def qdiv (a b : ℚ) : Except Err ℚ :=
  if b = 0 then .error .div else .ok (a / b)

/-- Python `int()` applied to a scalar: truncation toward zero. -/
def truncQ (q : ℚ) : ℤ :=
  if 0 ≤ q then ⌊q⌋ else ⌈q⌉

/-- The IEEE-754 double `np.pi` used by the notebook, as the exact
rational it denotes. -/
def npPi : ℚ := 884279719003555 / 281474976710656

/-- `np.linspace(a, b, num)`: `num` evenly spaced samples, both
endpoints included (for `num ≥ 2` the step is `(b-a)/(num-1)`; `num = 1`
gives `[a]`, `num = 0` gives `[]`). The notebook only calls it with
`a = b`, where every sample equals `a`. -/
def npLinspace (a b : ℚ) (num : ℕ) : List ℚ :=
  if num ≤ 1 then List.replicate num a
  else (List.range num).map (fun i : ℕ => a + (i : ℚ) * ((b - a) / ((num : ℚ) - 1)))

/-- The configuration scalars of the notebook's parameter cell. The
source fixes `u0 = 2e-2` (the literal in the `u_applied` linspaces) and
`g = 9.8e-9` (the constant body-force literal added inside the neighbor
loop); they are fields here so that claims quantifying over material
constants can be stated, and `sourceConfig` pins the source's values. -/
structure Config where
  rho : ℚ
  Young_modulus : ℚ
  nu : ℚ
  s0 : ℚ
  del_T : ℚ
  time_steps : ℕ
  bar_length : ℚ
  nx : ℕ
  u0 : ℚ
  g : ℚ
  vol : ℚ

/-- Bulk modulus `K = E / (3 (1 - 2 nu))`. -/
def Config.K (cfg : Config) : ℚ :=
  cfg.Young_modulus / (3 * (1 - 2 * cfg.nu))

/-- Mesh spacing `delta_x = bar_length / number_of_elements`. -/
def Config.delta_x (cfg : Config) : ℚ :=
  cfg.bar_length / (cfg.nx : ℚ)

/-- The horizon actually used by the loop, `delta_x * 3.014` (the
initial `horizon = 1.6` of the parameter cell is overwritten before
use). -/
def Config.horizon (cfg : Config) : ℚ :=
  cfg.delta_x * (1507 / 500)

/-- Micro-modulus `c = 18 K / (pi * horizon^4)`. -/
def Config.c (cfg : Config) : ℚ :=
  18 * cfg.K / (npPi * cfg.horizon ^ 4)

/-- `nodes = np.linspace(-bar_length/2, bar_length/2, number_of_elements)`. -/
def Config.nodes (cfg : Config) : List ℚ :=
  npLinspace (-(cfg.bar_length / 2)) (cfg.bar_length / 2) cfg.nx

/-- Reference coordinate of node `i` along the bar. `nodes_coords`
pairs it with the constant secondary coordinate `1`, which never
differs between two nodes and so never contributes to a distance. -/
def Config.node (cfg : Config) (i : ℕ) : ℚ :=
  cfg.nodes.getD i 0

/-- `u_applied`: concatenation of three constant `linspace` phases of
`time_steps // 3` entries each, `+u0` then `-u0` then `0`. -/
def Config.u_applied (cfg : Config) : List ℚ :=
  npLinspace cfg.u0 cfg.u0 (cfg.time_steps / 3)
    ++ npLinspace (-cfg.u0) (-cfg.u0) (cfg.time_steps / 3)
    ++ npLinspace 0 0 (cfg.time_steps / 3)

/-- The boundary test of the main loop: node `i` is within one horizon
of either bar end (`abs(nodes[i] - start) <= horizon or
abs(nodes[i] - end) <= horizon`). -/
def inBoundary (cfg : Config) (i : ℕ) : Bool :=
  decide (|cfg.node i - (-(cfg.bar_length / 2))| ≤ cfg.horizon ∨
    |cfg.node i - cfg.bar_length / 2| ≤ cfg.horizon)

/-- Size of `neighbor_ids = tree.query_ball_point(nodes_coords[x], horizon)`:
the number of nodes whose Euclidean reference distance to node `x` is at
most the horizon (closed ball; the secondary coordinates are all `1`, so
the distance is `|node j - node x|`; `x` itself is included when the
horizon is nonnegative). The loop uses `neighbor_ids` only through
`range(len(neighbor_ids))`, so only this count matters. -/
def Config.neighborCount (cfg : Config) (x : ℕ) : ℕ :=
  ((List.range cfg.nx).filter
    (fun j => decide (|cfg.node j - cfg.node x| ≤ cfg.horizon))).length

/-- The loop positions actually iterated for point `x`: `p` ranges over
`range(len(neighbor_ids))` and the body `continue`s when
`xp_index == xi_index`, i.e. when `p = x` (the notebook indexes
`nodes_with_ids[p]`, so `xp_index` is the loop position itself, not a
neighbor id). -/
def pairs (cfg : Config) (x : ℕ) : List ℕ :=
  (List.range (cfg.neighborCount x)).filter (fun p => p ≠ x)

/-- `ksi` as the notebook computes it for the pair `(x, p)`:
`sqrt((xp_locx - xi_locx)^2 + (xp_locy - xi_locy)^2)` where
`xp_locx = int(nodes_coords[p][0])` truncates the neighbor's coordinate
toward zero and `xp_locy = int(1.0) = 1` equals `xi_locy = 1.0`, so the
distance collapses to `|trunc(node p) - node x|`. -/
def bondKsi (cfg : Config) (x p : ℕ) : ℚ :=
  |((truncQ (cfg.node p) : ℤ) : ℚ) - cfg.node x|

/-- Bond stretch `s = (|ksi + eta| - |ksi|) / |ksi|` for the pair
`(x, p)` under the displacement field `nv` (the notebook evaluates it on
`node_values`, not on the evolved displacement buffers); fails on a
zero-length bond. -/
def bondStretchE (cfg : Config) (nv : List ℚ) (x p : ℕ) : Except Err ℚ :=
  let ksi := bondKsi cfg x p
  let eta := nv.getD p 0 - nv.getD x 0
  qdiv (|ksi + eta| - |ksi|) |ksi|

/-- The damage-gated pairwise force density
`((ksi+eta)/|ksi+eta|) * c * s * mu * vol`, with `mu` recomputed from
the current stretch (`mu = 0` iff `s > s0`); fails when the deformed
bond length `|ksi + eta|` is zero. -/
def bondForceE (cfg : Config) (nv : List ℚ) (x p : ℕ) : Except Err ℚ := do
  let ksi := bondKsi cfg x p
  let eta := nv.getD p 0 - nv.getD x 0
  let s ← bondStretchE cfg nv x p
  let mu : ℚ := if cfg.s0 < s then 0 else 1
  let sgn ← qdiv (ksi + eta) |ksi + eta|
  .ok (sgn * cfg.c * s * mu * cfg.vol)

/-- One summand of `sum_term`: the bond force plus the constant
body-force literal, added once per evaluated neighbor. -/
def bondTermE (cfg : Config) (nv : List ℚ) (x p : ℕ) : Except Err ℚ := do
  let f ← bondForceE cfg nv x p
  .ok (f + cfg.g)

/-- Left-to-right accumulation of `acc + term p` over a list of loop
positions, stopping at the first failure, as the `sum_term` loop does. -/
def sumListE (f : ℕ → Except Err ℚ) (acc : ℚ) : List ℕ → Except Err ℚ
  | [] => .ok acc
  | p :: ps => do
      let t ← f p
      sumListE f (acc + t) ps

/-- `sum_term` for point `x`: the accumulated bond terms over the loop
positions of `pairs`. -/
def sumTermE (cfg : Config) (nv : List ℚ) (x : ℕ) : Except Err ℚ :=
  sumListE (bondTermE cfg nv x) 0 (pairs cfg x)

/-- Acceleration of point `x`: `sum_term / rho`. The source assigns the
global `acceleration` inside the neighbor loop and reads it afterwards;
when a point's loop evaluates no pair the first such read of a run is an
unassigned-variable error (`NameError`). Because the evaluated pair
lists are time-independent, raising that error whenever `pairs` is empty
is run-equivalent to the source's global-variable behavior. -/
def accelE (cfg : Config) (nv : List ℚ) (x : ℕ) : Except Err ℚ :=
  match pairs cfg x with
  | [] => .error .unassigned
  | ps => do
      let s ← sumListE (bondTermE cfg nv x) 0 ps
      qdiv s cfg.rho

/-- First-failure collection of per-element results, in source order. -/
def collectE {α β : Type} (f : α → Except Err β) : List α → Except Err (List β)
  | [] => .ok []
  | a :: as => do
      let b ← f a
      let bs ← collectE f as
      .ok (b :: bs)

/-- The per-step field `node_values`: zero-initialised, then every
boundary-layer node is overwritten with `u_applied[n]` (an out-of-range
`n` is an `IndexError`); non-boundary nodes stay zero. This is the field
the force evaluation reads — not the evolved `u_current`. -/
def nodeValuesE (cfg : Config) (n : ℕ) : Except Err (List ℚ) :=
  collectE
    (fun i =>
      if inBoundary cfg i then
        match cfg.u_applied.get? n with
        | some v => .ok v
        | none => .error .idx
      else .ok 0)
    (List.range cfg.nx)

/-- The acceleration field of one step, one value per node. -/
def accelFieldE (cfg : Config) (nv : List ℚ) : Except Err (List ℚ) :=
  collectE (accelE cfg nv) (List.range cfg.nx)

/-- The two persistent displacement buffers. -/
structure PDState where
  curr : List ℚ
  prev : List ℚ
deriving DecidableEq

/-- Both buffers start at zero for all points. -/
def initState (cfg : Config) : PDState :=
  ⟨List.replicate cfg.nx 0, List.replicate cfg.nx 0⟩

/-- One iteration of the main loop at step `n`: build `node_values`,
evaluate the acceleration field from it, form
`u_future[i] = acceleration[i]*del_T^2 + 2*u_current[i] - u_previous[i]`,
record the pre-update `u_current` as the step's solution row, and rotate
the buffers (`previous ← current`, `current ← future`). -/
def stepE (cfg : Config) (n : ℕ) (st : PDState) :
    Except Err (List ℚ × PDState) := do
  let nv ← nodeValuesE cfg n
  let acc ← accelFieldE cfg nv
  let fut := (List.range cfg.nx).map
    (fun i => acc.getD i 0 * cfg.del_T ^ 2 + 2 * st.curr.getD i 0 - st.prev.getD i 0)
  .ok (st.curr, ⟨fut, st.curr⟩)

/-- The first `m` steps of the run: the recorded solution rows (row `n`
is step `n`'s record) together with the final buffers. -/
def runToE (cfg : Config) : ℕ → Except Err (List (List ℚ) × PDState)
  | 0 => .ok ([], initState cfg)
  | m + 1 => do
      let (recs, st) ← runToE cfg m
      let (r, st') ← stepE cfg m st
      .ok (recs ++ [r], st')

/-- The full run: `u_vector_solution` after all `time_steps` steps. -/
def runE (cfg : Config) : Except Err (List (List ℚ)) :=
  (runToE cfg cfg.time_steps).map (fun p => p.1)

/-- The notebook's configuration with its `time_steps` left as a
parameter: `rho = 8e-6`, `E = 19578.55`, `nu = 0.3`, `s0 = 0.02`,
`del_T = 0.1`, `bar_length = 15`, `number_of_elements = 7`,
`u0 = 2e-2`, body force `9.8e-9`, unit volume. -/
def cfgTS (ts : ℕ) : Config :=
  { rho := 8 / 1000000
    Young_modulus := 1957855 / 100
    nu := 3 / 10
    s0 := 1 / 50
    del_T := 1 / 10
    time_steps := ts
    bar_length := 15
    nx := 7
    u0 := 1 / 50
    g := 98 / 10000000000
    vol := 1 }

/-- The source configuration itself: `time_steps = int(total_time/del_T)
= int(15/0.1) = 150` (the double quotient `15/0.1` rounds to exactly
`150.0`). -/
def sourceConfig : Config := cfgTS 150

/-- The source configuration with the applied-displacement magnitude
raised to `0.1` (five times the critical stretch), used to exercise the
damage rule. -/
def cfg3 : Config := { sourceConfig with u0 := 1 / 10 }

/-- The source configuration with `Young_modulus = 0` (so the
micro-modulus `c` and with it every bond force is zero) and zero applied
boundary displacement. -/
def cfg5 : Config := { sourceConfig with Young_modulus := 0, u0 := 0 }

/-- As `cfg5`, but with the constant body-force term also set to zero. -/
def cfg5z : Config := { sourceConfig with Young_modulus := 0, u0 := 0, g := 0 }

/-- The source geometry with material constants chosen to make the
micro-modulus `c` exactly `1` (`E = pi*horizon^4/15`, so
`c = 15 E/(pi*horizon^4) = 1`), unit density, unit time step and no body
force: a configuration whose exact force arithmetic stays small. -/
def cfgC1 : Config :=
  { sourceConfig with
    Young_modulus := npPi * (4521 / 700) ^ 4 / 15
    rho := 1
    del_T := 1
    g := 0 }

/-- Modelled from claim C1's wording: the step's boundary value
overwrites `u_current` at the boundary-layer points, while every other
point keeps its freely evolved current displacement `uc`. The code does
not build this field (it builds `nodeValuesE`, which is zero at
non-boundary points). -/
def overwriteCurrE (cfg : Config) (n : ℕ) (uc : List ℚ) : Except Err (List ℚ) :=
  collectE
    (fun i =>
      if inBoundary cfg i then
        match cfg.u_applied.get? n with
        | some v => .ok v
        | none => .error .idx
      else .ok (uc.getD i 0))
    (List.range cfg.nx)

/-- Modelled from claim C2's wording: the neighbors of `i` are exactly
the points `j ≠ i` whose Euclidean reference distance to `i` is at most
the horizon. -/
def claimPairs (cfg : Config) (x : ℕ) : List ℕ :=
  (List.range cfg.nx).filter
    (fun j => j ≠ x ∧ |cfg.node j - cfg.node x| ≤ cfg.horizon)

/-- Modelled from claim C2's wording: the reference distance
`ksi = |x_j - x_i|`, from the untruncated reference coordinates. -/
def claimKsi (cfg : Config) (x j : ℕ) : ℚ :=
  |cfg.node j - cfg.node x|

/-- The force term of claim C2: the code's force law with the claim's
`ksi` in place of the truncated one. -/
def claimTermE (cfg : Config) (nv : List ℚ) (x j : ℕ) : Except Err ℚ := do
  let ksi := claimKsi cfg x j
  let eta := nv.getD j 0 - nv.getD x 0
  let s ← qdiv (|ksi + eta| - |ksi|) |ksi|
  let mu : ℚ := if cfg.s0 < s then 0 else 1
  let sgn ← qdiv (ksi + eta) |ksi + eta|
  .ok (sgn * cfg.c * s * mu * cfg.vol + cfg.g)

/-- The net force density of claim C2: one contribution per neighbor
point `j ≠ i` within the horizon. -/
def claimSumE (cfg : Config) (nv : List ℚ) (x : ℕ) : Except Err ℚ :=
  sumListE (claimTermE cfg nv x) 0 (claimPairs cfg x)

/-- The observable `u_future[i] - 2 u_current[i] + u_previous[i]` of a
step, which by the central-difference formula equals
`acceleration[i] * del_T^2`; comparing it across two states compares the
accelerations the step computed for point `i`. -/
def accelObs (cfg : Config) (n : ℕ) (st : PDState) (i : ℕ) : Except Err ℚ :=
  (stepE cfg n st).map
    (fun pr => pr.2.curr.getD i 0 - 2 * st.curr.getD i 0 + st.prev.getD i 0)

lemma bindE_ok {α β : Type} (a : α) (f : α → Except Err β) :
    (Except.ok a >>= f) = f a := rfl

lemma bindE_err {α β : Type} (e : Err) (f : α → Except Err β) :
    ((Except.error e : Except Err α) >>= f) = .error e := rfl

lemma mapE_ok {α β : Type} (f : α → β) (a : α) :
    (Except.ok a : Except Err α).map f = .ok (f a) := rfl

lemma mapE_err {α β : Type} (f : α → β) (e : Err) :
    (Except.error e : Except Err α).map f = .error e := rfl

lemma bindE_ok' {α β : Type} (a : α) (f : α → Except Err β) :
    (Except.ok a : Except Err α).bind f = f a := rfl

lemma bindE_err' {α β : Type} (e : Err) (f : α → Except Err β) :
    (Except.error e : Except Err α).bind f = .error e := rfl

lemma nodes_geom (cfg : Config) (hL : cfg.bar_length = 15) (hn : cfg.nx = 7) :
    cfg.nodes = [-(15/2), -5, -(5/2), 0, 5/2, 5, 15/2] := by
  rw [Config.nodes, hL, hn]
  norm_num [npLinspace, List.range_succ]

lemma horizon_geom (cfg : Config) (hL : cfg.bar_length = 15) (hn : cfg.nx = 7) :
    cfg.horizon = 4521 / 700 := by
  rw [Config.horizon, Config.delta_x, hL, hn]
  norm_num

lemma neighborCount_geom (cfg : Config) (hL : cfg.bar_length = 15) (hn : cfg.nx = 7) :
    cfg.neighborCount 0 = 3 ∧ cfg.neighborCount 1 = 4 ∧ cfg.neighborCount 2 = 5 ∧
    cfg.neighborCount 3 = 5 ∧ cfg.neighborCount 4 = 5 ∧ cfg.neighborCount 5 = 4 ∧
    cfg.neighborCount 6 = 3 := by
  norm_num [Config.neighborCount, Config.node, nodes_geom cfg hL hn,
    horizon_geom cfg hL hn, hn, List.getD, List.range_succ, List.filter,
    abs_of_nonneg, abs_of_nonpos]

lemma pairs_geom (cfg : Config) (hL : cfg.bar_length = 15) (hn : cfg.nx = 7) :
    pairs cfg 0 = [1, 2] ∧ pairs cfg 1 = [0, 2, 3] ∧ pairs cfg 2 = [0, 1, 3, 4] ∧
    pairs cfg 3 = [0, 1, 2, 4] ∧ pairs cfg 4 = [0, 1, 2, 3] ∧
    pairs cfg 5 = [0, 1, 2, 3] ∧ pairs cfg 6 = [0, 1, 2] := by
  obtain ⟨h0, h1, h2, h3, h4, h5, h6⟩ := neighborCount_geom cfg hL hn
  refine ⟨?_, ?_, ?_, ?_, ?_, ?_, ?_⟩ <;>
    simp [pairs, h0, h1, h2, h3, h4, h5, h6, List.range_succ, List.filter]

lemma bondKsi_geom (cfg : Config) (hL : cfg.bar_length = 15) (hn : cfg.nx = 7)
    (x p : ℕ) (hx : x < 7) (hp : p < 7) :
    bondKsi cfg x p =
      |([(-7 : ℚ), -5, -2, 0, 2, 5, 7].getD p 0) -
        ([(-(15/2) : ℚ), -5, -(5/2), 0, 5/2, 5, 15/2].getD x 0)| := by
  interval_cases x <;> interval_cases p <;>
    norm_num [bondKsi, Config.node, nodes_geom cfg hL hn, List.getD, truncQ, Int.ceil_neg]

lemma bondTermE_isOk (cfg : Config) (nv : List ℚ) (x p : ℕ)
    (h1 : bondKsi cfg x p ≠ 0)
    (h2 : bondKsi cfg x p + (nv.getD p 0 - nv.getD x 0) ≠ 0) :
    ∃ t, bondTermE cfg nv x p = .ok t := by
  have hk : ¬(|bondKsi cfg x p| = 0) := by simpa [abs_eq_zero] using h1
  have hke : ¬(|bondKsi cfg x p + (nv.getD p 0 - nv.getD x 0)| = 0) := by
    simpa [abs_eq_zero] using h2
  simp only [bondTermE, bondForceE, bondStretchE, qdiv, if_neg hk, if_neg hke, bindE_ok]
  exact ⟨_, rfl⟩

lemma sumListE_ok (f : ℕ → Except Err ℚ) (l : List ℕ)
    (h : ∀ p ∈ l, ∃ t, f p = .ok t) :
    ∀ acc, ∃ s, sumListE f acc l = .ok s := by
  induction l with
  | nil => exact fun acc => ⟨acc, rfl⟩
  | cons p ps ih =>
      intro acc
      obtain ⟨t, ht⟩ := h p (List.mem_cons_self p ps)
      obtain ⟨s, hs⟩ := ih (fun q hq => h q (List.mem_cons_of_mem p hq)) (acc + t)
      exact ⟨s, by simp only [sumListE, ht, bindE_ok]; exact hs⟩

lemma accelField_geom_ok (cfg : Config) (v : ℚ) (hL : cfg.bar_length = 15)
    (hn : cfg.nx = 7) (hrho : cfg.rho ≠ 0) (hv : |v| < 2) :
    ∃ a, accelFieldE cfg [v, v, v, 0, v, v, v] = .ok a := by
  have hvlt := abs_lt.1 hv
  obtain ⟨p0, p1, p2, p3, p4, p5, p6⟩ := pairs_geom cfg hL hn
  have hterm : ∀ x p : ℕ, x < 7 → p < 7 → p ≠ x →
      ∃ t, bondTermE cfg [v, v, v, 0, v, v, v] x p = .ok t := by
    intro x p hx hp hne
    apply bondTermE_isOk
    · rw [bondKsi_geom cfg hL hn x p hx hp]
      interval_cases x <;> interval_cases p <;>
        first
          | exact absurd rfl hne
          | norm_num [List.getD, abs_of_nonneg, abs_of_nonpos]
    · rw [bondKsi_geom cfg hL hn x p hx hp]
      interval_cases x <;> interval_cases p <;>
        first
          | exact absurd rfl hne
          | (norm_num [List.getD, abs_of_nonneg, abs_of_nonpos]
             try intro hcon
             try linarith [hvlt.1, hvlt.2])
  have haccel : ∀ x : ℕ, x < 7 → ∃ a, accelE cfg [v, v, v, 0, v, v, v] x = .ok a := by
    intro x hx
    have hpair : ∀ (q : ℕ) (qs : List ℕ), (∀ p ∈ q :: qs, p < 7 ∧ p ≠ x) →
        pairs cfg x = q :: qs →
        ∃ a, accelE cfg [v, v, v, 0, v, v, v] x = .ok a := by
      intro q qs hl hpl
      obtain ⟨s, hs⟩ := sumListE_ok (bondTermE cfg [v, v, v, 0, v, v, v] x) (q :: qs)
        (fun p hp => hterm x p hx (hl p hp).1 (hl p hp).2) 0
      refine ⟨s / cfg.rho, ?_⟩
      simp only [accelE]
      rw [hpl]
      simp only [hs, bindE_ok, qdiv, if_neg hrho]
    interval_cases x
    · exact hpair 1 [2] (by intro p hp; fin_cases hp <;> omega) p0
    · exact hpair 0 [2, 3] (by intro p hp; fin_cases hp <;> omega) p1
    · exact hpair 0 [1, 3, 4] (by intro p hp; fin_cases hp <;> omega) p2
    · exact hpair 0 [1, 2, 4] (by intro p hp; fin_cases hp <;> omega) p3
    · exact hpair 0 [1, 2, 3] (by intro p hp; fin_cases hp <;> omega) p4
    · exact hpair 0 [1, 2, 3] (by intro p hp; fin_cases hp <;> omega) p5
    · exact hpair 0 [1, 2] (by intro p hp; fin_cases hp <;> omega) p6
  rw [accelFieldE, hn, show List.range 7 = [0, 1, 2, 3, 4, 5, 6] from rfl]
  obtain ⟨a0, h0⟩ := haccel 0 (by omega)
  obtain ⟨a1, h1⟩ := haccel 1 (by omega)
  obtain ⟨a2, h2⟩ := haccel 2 (by omega)
  obtain ⟨a3, h3⟩ := haccel 3 (by omega)
  obtain ⟨a4, h4⟩ := haccel 4 (by omega)
  obtain ⟨a5, h5⟩ := haccel 5 (by omega)
  obtain ⟨a6, h6⟩ := haccel 6 (by omega)
  exact ⟨[a0, a1, a2, a3, a4, a5, a6],
    by simp only [collectE, h0, h1, h2, h3, h4, h5, h6, bindE_ok]⟩

lemma map_const_replicate (b : ℚ) (l : List ℕ) :
    l.map (fun _ => b) = List.replicate l.length b := by
  induction l with
  | nil => rfl
  | cons x xs ih => simp [ih, List.replicate_succ]

lemma npLinspace_const (a : ℚ) (k : ℕ) : npLinspace a a k = List.replicate k a := by
  unfold npLinspace
  split
  · rfl
  · have hf : (fun i : ℕ => a + (i : ℚ) * ((a - a) / ((k : ℚ) - 1))) = fun _ => a := by
      funext i
      ring
    rw [hf, map_const_replicate, List.length_range]

lemma uApplied_eq (cfg : Config) :
    cfg.u_applied =
      List.replicate (cfg.time_steps / 3) cfg.u0
        ++ List.replicate (cfg.time_steps / 3) (-cfg.u0)
        ++ List.replicate (cfg.time_steps / 3) 0 := by
  rw [Config.u_applied, npLinspace_const, npLinspace_const, npLinspace_const]

lemma uApplied_length (cfg : Config) :
    cfg.u_applied.length = 3 * (cfg.time_steps / 3) := by
  rw [uApplied_eq]
  simp only [List.length_append, List.length_replicate]
  ring

lemma get?_replicate (a : ℚ) (k n : ℕ) :
    (List.replicate k a).get? n = if n < k then some a else none := by
  induction k generalizing n with
  | zero => simp
  | succ k ih =>
      cases n with
      | zero => simp [List.replicate]
      | succ m =>
          rw [List.replicate_succ, List.get?, ih]
          simp [Nat.succ_lt_succ_iff]

lemma uApplied_get?_of_mem (cfg : Config) (n : ℕ) (v : ℚ)
    (h : cfg.u_applied.get? n = some v) :
    v = cfg.u0 ∨ v = -cfg.u0 ∨ v = 0 := by
  have hv : v ∈ cfg.u_applied := List.get?_mem h
  rw [uApplied_eq] at hv
  rcases List.mem_append.1 hv with h1 | h1
  · rcases List.mem_append.1 h1 with h2 | h2
    · exact Or.inl (List.eq_of_mem_replicate h2)
    · exact Or.inr (Or.inl (List.eq_of_mem_replicate h2))
  · exact Or.inr (Or.inr (List.eq_of_mem_replicate h1))

lemma uApplied_get?_some (cfg : Config) (n : ℕ) (h : n < 3 * (cfg.time_steps / 3)) :
    ∃ v, cfg.u_applied.get? n = some v ∧ (v = cfg.u0 ∨ v = -cfg.u0 ∨ v = 0) := by
  have hlen : n < cfg.u_applied.length := by rw [uApplied_length]; exact h
  have hg := List.get?_eq_get hlen
  exact ⟨_, hg, uApplied_get?_of_mem cfg n _ hg⟩

lemma uApplied_get?_none (cfg : Config) (n : ℕ) (h : 3 * (cfg.time_steps / 3) ≤ n) :
    cfg.u_applied.get? n = none := by
  apply List.get?_eq_none.2
  rw [uApplied_length]
  exact h

lemma uApplied_get?_phase (cfg : Config) (n : ℕ) :
    cfg.u_applied.get? n =
      if n < cfg.time_steps / 3 then some cfg.u0
      else if n < 2 * (cfg.time_steps / 3) then some (-cfg.u0)
      else if n < 3 * (cfg.time_steps / 3) then some 0
      else none := by
  rw [uApplied_eq]
  generalize cfg.time_steps / 3 = f
  by_cases h2 : n < 2 * f
  · rw [List.get?_append (by simp only [List.length_append, List.length_replicate]; omega)]
    by_cases h1 : n < f
    · rw [List.get?_append (by simpa using h1), get?_replicate, if_pos h1, if_pos h1]
    · have hlt : n - f < f := by omega
      rw [List.get?_append_right (by simpa using Nat.le_of_not_lt h1),
        List.length_replicate, get?_replicate, if_pos hlt, if_neg h1, if_pos h2]
  · rw [List.get?_append_right (by simp only [List.length_append, List.length_replicate]; omega)]
    simp only [List.length_append, List.length_replicate]
    rw [get?_replicate]
    have h1 : ¬ n < f := by omega
    rw [if_neg h1, if_neg h2]
    by_cases h3 : n < 3 * f
    · rw [if_pos (show n - (f + f) < f by omega), if_pos h3]
    · rw [if_neg (show ¬(n - (f + f) < f) by omega), if_neg h3]

lemma inBoundary_geom (cfg : Config) (hL : cfg.bar_length = 15) (hn : cfg.nx = 7) :
    inBoundary cfg 0 = true ∧ inBoundary cfg 1 = true ∧ inBoundary cfg 2 = true ∧
    inBoundary cfg 3 = false ∧ inBoundary cfg 4 = true ∧ inBoundary cfg 5 = true ∧
    inBoundary cfg 6 = true := by
  norm_num [inBoundary, Config.node, nodes_geom cfg hL hn, horizon_geom cfg hL hn, hL,
    List.getD, abs_of_nonneg, abs_of_nonpos]

lemma nodeValuesE_geom (cfg : Config) (hL : cfg.bar_length = 15) (hn : cfg.nx = 7)
    (n : ℕ) (v : ℚ) (h : cfg.u_applied.get? n = some v) :
    nodeValuesE cfg n = .ok [v, v, v, 0, v, v, v] := by
  obtain ⟨h0, h1, h2, h3, h4, h5, h6⟩ := inBoundary_geom cfg hL hn
  rw [nodeValuesE, hn, show List.range 7 = [0, 1, 2, 3, 4, 5, 6] from rfl]
  simp only [collectE, h0, h1, h2, h3, h4, h5, h6, h, if_true, if_false,
    Bool.false_eq_true, bindE_ok]

lemma nodeValuesE_geom_err (cfg : Config) (hL : cfg.bar_length = 15) (hn : cfg.nx = 7)
    (n : ℕ) (h : cfg.u_applied.get? n = none) :
    nodeValuesE cfg n = .error .idx := by
  obtain ⟨h0, _⟩ := inBoundary_geom cfg hL hn
  rw [nodeValuesE, hn, show List.range 7 = [0, 1, 2, 3, 4, 5, 6] from rfl]
  simp only [collectE, h0, h, if_true, bindE_err]

lemma stepE_eq (cfg : Config) (n : ℕ) (st : PDState) (nv acc : List ℚ)
    (h1 : nodeValuesE cfg n = .ok nv) (h2 : accelFieldE cfg nv = .ok acc) :
    stepE cfg n st = .ok (st.curr,
      ⟨(List.range cfg.nx).map
        (fun i => acc.getD i 0 * cfg.del_T ^ 2 + 2 * st.curr.getD i 0 - st.prev.getD i 0),
       st.curr⟩) := by
  simp only [stepE, h1, h2, bindE_ok]

lemma stepE_err (cfg : Config) (n : ℕ) (st : PDState) (e : Err)
    (h : nodeValuesE cfg n = .error e) : stepE cfg n st = .error e := by
  simp only [stepE, h, bindE_err]

lemma runToE_len (cfg : Config) (m : ℕ) (recs : List (List ℚ)) (st : PDState)
    (h : runToE cfg m = .ok (recs, st)) : recs.length = m := by
  induction m generalizing recs st with
  | zero =>
      simp only [runToE, Except.ok.injEq, Prod.mk.injEq] at h
      rw [← h.1]
      rfl
  | succ k ih =>
      simp only [runToE] at h
      cases hr : runToE cfg k with
      | error e => rw [hr] at h; exact absurd h (by simp [bindE_err])
      | ok pr =>
          rw [hr, bindE_ok] at h
          cases hs : stepE cfg k pr.2 with
          | error e => rw [hs] at h; exact absurd h (by simp [bindE_err])
          | ok qr =>
              rw [hs, bindE_ok] at h
              simp only [Except.ok.injEq, Prod.mk.injEq] at h
              have := ih pr.1 pr.2 (by rw [hr])
              rw [← h.1]
              simp [this]

lemma runToE_ok (cfg : Config) (m : ℕ)
    (h : ∀ k st, k < m → ∃ r, stepE cfg k st = .ok r) :
    ∃ recs st, runToE cfg m = .ok (recs, st) := by
  induction m with
  | zero => exact ⟨[], initState cfg, rfl⟩
  | succ k ih =>
      obtain ⟨recs, st, hrun⟩ := ih (fun j stj hj => h j stj (Nat.lt_succ_of_lt hj))
      obtain ⟨r, hr⟩ := h k st (Nat.lt_succ_self k)
      exact ⟨recs ++ [r.1], r.2, by simp only [runToE, hrun, bindE_ok, hr]⟩

lemma runToE_err_after (cfg : Config) (j : ℕ) (e : Err)
    (hok : ∀ k st, k < j → ∃ r, stepE cfg k st = .ok r)
    (hfail : ∀ st, stepE cfg j st = .error e) :
    ∀ m, j < m → runToE cfg m = .error e := by
  intro m
  induction m with
  | zero => omega
  | succ k ih =>
      intro hjk
      rcases Nat.lt_or_ge j k with hlt | hge
      · simp only [runToE, ih hlt, bindE_err]
      · have hjeq : j = k := by omega
        subst hjeq
        obtain ⟨recs, st, hrun⟩ := runToE_ok cfg j hok
        simp only [runToE, hrun, bindE_ok, hfail st, bindE_err]

lemma bondTermE_etaZero (cfg : Config) (nv : List ℚ) (x p : ℕ)
    (h1 : bondKsi cfg x p ≠ 0) (he : nv.getD p 0 - nv.getD x 0 = 0) :
    bondTermE cfg nv x p = .ok cfg.g := by
  have hk : ¬(|bondKsi cfg x p| = 0) := by simpa [abs_eq_zero] using h1
  simp only [bondTermE, bondForceE, bondStretchE, qdiv, he, add_zero, if_neg hk,
    bindE_ok, sub_self, zero_div]
  simp [mul_zero, zero_mul]

lemma claimTermE_etaZero (cfg : Config) (nv : List ℚ) (x j : ℕ)
    (h1 : claimKsi cfg x j ≠ 0) (he : nv.getD j 0 - nv.getD x 0 = 0) :
    claimTermE cfg nv x j = .ok cfg.g := by
  have hk : ¬(|claimKsi cfg x j| = 0) := by simpa [abs_eq_zero] using h1
  simp only [claimTermE, qdiv, he, add_zero, if_neg hk, bindE_ok, sub_self, zero_div]
  simp [mul_zero, zero_mul]

lemma sumListE_const (f : ℕ → Except Err ℚ) (gv : ℚ) (l : List ℕ)
    (h : ∀ p ∈ l, f p = .ok gv) :
    ∀ acc, sumListE f acc l = .ok (acc + l.length * gv) := by
  induction l with
  | nil => intro acc; simp [sumListE]
  | cons p ps ih =>
      intro acc
      rw [sumListE, h p (List.mem_cons_self p ps), bindE_ok,
        ih (fun q hq => h q (List.mem_cons_of_mem p hq)) (acc + gv)]
      congr 1
      rw [List.length_cons]
      push_cast
      ring

lemma sumListE_collect (f : ℕ → Except Err ℚ) (l : List ℕ) :
    ∀ acc, sumListE f acc l = (collectE f l).map (fun ts => acc + ts.sum) := by
  induction l with
  | nil => intro acc; simp [sumListE, collectE, mapE_ok]
  | cons p ps ih =>
      intro acc
      cases hf : f p with
      | error e => simp [sumListE, collectE, hf, bindE_err, mapE_err]
      | ok t =>
          rw [sumListE, collectE, hf, bindE_ok, bindE_ok, ih (acc + t)]
          cases hc : collectE f ps with
          | error e => simp [hc, bindE_err, mapE_err]
          | ok ts =>
              simp only [hc, bindE_ok, mapE_ok, List.sum_cons]
              congr 1
              ring

/-- C7: the boundary-condition generator yields `floor(time_steps/3)`
copies of `+u0`, then as many of `-u0`, then as many of `0`; when
`time_steps` is not divisible by 3 the remainder steps are dropped, so
the total length is `3*floor(time_steps/3)`, not `time_steps`. -/
theorem c7_bc_three_constant_thirds (cfg : Config) :
    cfg.u_applied =
      List.replicate (cfg.time_steps / 3) cfg.u0
        ++ List.replicate (cfg.time_steps / 3) (-cfg.u0)
        ++ List.replicate (cfg.time_steps / 3) 0
    ∧ cfg.u_applied.length = 3 * (cfg.time_steps / 3) :=
  ⟨uApplied_eq cfg, uApplied_length cfg⟩

/-- C4: if the first `n` steps produced records `recs` and buffers `st`,
and step `n`'s node values and accelerations evaluate, then step `n`
computes `u_future[i] = acceleration[i]*del_T^2 + 2*u_current[i] -
u_previous[i]`, records the pre-update `u_current` at index `n` (`recs`
has length `n`), and rotates the buffers: previous becomes the old
current, current becomes the future field. -/
theorem c4_integrator_record_rotate (cfg : Config) (n : ℕ) (recs : List (List ℚ))
    (st : PDState) (nv acc : List ℚ)
    (hrun : runToE cfg n = .ok (recs, st))
    (hnv : nodeValuesE cfg n = .ok nv)
    (hacc : accelFieldE cfg nv = .ok acc) :
    runToE cfg (n + 1) = .ok (recs ++ [st.curr],
      ⟨(List.range cfg.nx).map
        (fun i => acc.getD i 0 * cfg.del_T ^ 2 + 2 * st.curr.getD i 0
          - st.prev.getD i 0),
       st.curr⟩)
    ∧ recs.length = n := by
  constructor
  · simp only [runToE, hrun, bindE_ok, stepE_eq cfg n st nv acc hnv hacc]
  · exact runToE_len cfg n recs st hrun

/-- C9: the acceleration a step computes for a point is independent of
the current and previous displacement buffers: the observable
`u_future[i] - 2 u_current[i] + u_previous[i] = acceleration[i]*del_T^2`
is the same for two runs whose buffers differ arbitrarily, because the
force field is evaluated on `node_values`, which depends only on the
step's boundary value and the fixed geometry. -/
theorem c9_accel_ignores_displacement_state (cfg : Config) (n : ℕ)
    (st st' : PDState) (i : ℕ) (hi : i < cfg.nx) :
    accelObs cfg n st i = accelObs cfg n st' i := by
  unfold accelObs stepE
  cases hnv : nodeValuesE cfg n with
  | error e => simp [bindE_err, mapE_err]
  | ok nv =>
      simp only [bindE_ok]
      cases hacc : accelFieldE cfg nv with
      | error e => simp [bindE_err, mapE_err]
      | ok acc =>
          simp only [bindE_ok, mapE_ok]
          have hg : ∀ s : PDState,
              ((List.range cfg.nx).map
                (fun j => acc.getD j 0 * cfg.del_T ^ 2 + 2 * s.curr.getD j 0
                  - s.prev.getD j 0)).getD i 0
              = acc.getD i 0 * cfg.del_T ^ 2 + 2 * s.curr.getD i 0
                  - s.prev.getD i 0 := by
            intro s
            rw [List.getD_eq_getD_get?, List.get?_map, List.get?_range hi]
            rfl
          rw [hg st, hg st']
          congr 1
          ring

lemma collectE_ok_map {α β : Type} (f : α → Except Err β) (gf : α → β) (l : List α)
    (h : ∀ a ∈ l, f a = .ok (gf a)) : collectE f l = .ok (l.map gf) := by
  induction l with
  | nil => rfl
  | cons a as ih =>
      rw [collectE, h a (List.mem_cons_self a as), bindE_ok,
        ih (fun b hb => h b (List.mem_cons_of_mem a hb)), bindE_ok, List.map]

lemma nodeValuesE_of_get? (cfg : Config) (n : ℕ) (v : ℚ)
    (h : cfg.u_applied.get? n = some v) :
    nodeValuesE cfg n =
      .ok ((List.range cfg.nx).map (fun i => if inBoundary cfg i then v else 0)) := by
  apply collectE_ok_map
  intro i _
  by_cases hb : inBoundary cfg i
  · rw [if_pos hb, h, if_pos hb]
  · rw [if_neg hb, if_neg hb]

/-- C1 (amended): at every step the boundary value for the step is
written into a fresh field (`u_applied[n]` at boundary-layer points,
zero at all other points); `u_current` is never overwritten, and the
bond forces are evaluated from that fresh field, so non-boundary points
contribute their initial zero, not their freely evolved current
displacement. -/
theorem c1_forces_from_fresh_node_values (cfg : Config) (n : ℕ) (v : ℚ)
    (st : PDState) (h : cfg.u_applied.get? n = some v) :
    stepE cfg n st =
      (accelFieldE cfg
          ((List.range cfg.nx).map (fun i => if inBoundary cfg i then v else 0))).map
        (fun acc => (st.curr,
          ⟨(List.range cfg.nx).map
            (fun i => acc.getD i 0 * cfg.del_T ^ 2 + 2 * st.curr.getD i 0
              - st.prev.getD i 0),
           st.curr⟩)) := by
  rw [stepE, nodeValuesE_of_get? cfg n v h, bindE_ok]
  cases hacc : accelFieldE cfg
      ((List.range cfg.nx).map (fun i => if inBoundary cfg i then v else 0)) with
  | error e => rw [bindE_err, mapE_err]
  | ok acc => rw [bindE_ok, mapE_ok]

/-- Witness for C1's amended theorem at a concrete input. -/
theorem c1_witness :
    cfg5z.u_applied.get? 0 = some 0 ∧
    stepE cfg5z 0 ⟨[1, 1, 1, 1, 1, 1, 1], [2, 2, 2, 2, 2, 2, 2]⟩ =
      (accelFieldE cfg5z
          ((List.range cfg5z.nx).map (fun i => if inBoundary cfg5z i then (0:ℚ) else 0))).map
        (fun acc => (([1, 1, 1, 1, 1, 1, 1] : List ℚ),
          ⟨(List.range cfg5z.nx).map
            (fun i => acc.getD i 0 * cfg5z.del_T ^ 2
              + 2 * (([1, 1, 1, 1, 1, 1, 1] : List ℚ)).getD i 0
              - (([2, 2, 2, 2, 2, 2, 2] : List ℚ)).getD i 0),
           ([1, 1, 1, 1, 1, 1, 1] : List ℚ)⟩)) := by
  have hget : cfg5z.u_applied.get? 0 = some 0 := by
    rw [uApplied_get?_phase]
    norm_num [show cfg5z.time_steps = 150 from rfl, show cfg5z.u0 = 0 from rfl]
  exact ⟨hget,
    c1_forces_from_fresh_node_values cfg5z 0 0 ⟨[1, 1, 1, 1, 1, 1, 1], [2, 2, 2, 2, 2, 2, 2]⟩ hget⟩

lemma cfgC1_c : Config.c cfgC1 = 1 := by
  rw [Config.c, Config.K, horizon_geom cfgC1 rfl rfl,
    show cfgC1.Young_modulus = npPi * (4521 / 700) ^ 4 / 15 from rfl,
    show cfgC1.nu = 3 / 10 from rfl, npPi]
  norm_num

lemma cfgC1_eval :
    nodeValuesE cfgC1 0 = .ok [1/50, 1/50, 1/50, 0, 1/50, 1/50, 1/50]
    ∧ nodeValuesE cfgC1 1 = .ok [1/50, 1/50, 1/50, 0, 1/50, 1/50, 1/50]
    ∧ accelFieldE cfgC1 [1/50, 1/50, 1/50, 0, 1/50, 1/50, 1/50] =
        .ok [0, -(1/250), -(1/125), 47/1750, -(1/125), -(1/250), 0] := by
  have hget : ∀ n : ℕ, n < 50 → cfgC1.u_applied.get? n = some (1/50) := by
    intro n hn
    rw [uApplied_get?_phase, show cfgC1.time_steps = 150 from rfl,
      show cfgC1.u0 = 1/50 from rfl]
    norm_num [hn, show (150 : ℕ) / 3 = 50 from rfl]
  have hg : cfgC1.g = 0 := rfl
  have hrho : cfgC1.rho = 1 := rfl
  obtain ⟨p0, p1, p2, p3, p4, p5, p6⟩ := pairs_geom cfgC1 rfl rfl
  set nvL : List ℚ := [1/50, 1/50, 1/50, 0, 1/50, 1/50, 1/50] with hnvL
  have hz : ∀ x p : ℕ, x < 7 → p < 7 → p ≠ x → bondKsi cfgC1 x p ≠ 0 →
      nvL.getD p 0 - nvL.getD x 0 = 0 → bondTermE cfgC1 nvL x p = .ok 0 := by
    intro x p _ _ _ hk he
    rw [bondTermE_etaZero cfgC1 nvL x p hk he, hg]
  have hksi : ∀ x p : ℕ, x < 7 → p < 7 →
      bondKsi cfgC1 x p =
        |([(-7 : ℚ), -5, -2, 0, 2, 5, 7].getD p 0) -
          ([(-(15/2) : ℚ), -5, -(5/2), 0, 5/2, 5, 15/2].getD x 0)| :=
    bondKsi_geom cfgC1 rfl rfl
  -- the eight pairs that touch the interior node 3
  have t13 : bondTermE cfgC1 nvL 1 3 = .ok (-(1/250)) := by
    norm_num [bondTermE, bondForceE, bondStretchE, qdiv, hksi 1 3 (by omega) (by omega),
      List.getD, hnvL, cfgC1_c, abs_of_nonneg, abs_of_nonpos,
      show cfgC1.s0 = 1/50 from rfl, show cfgC1.vol = 1 from rfl, hg, bindE_ok]
  have t23 : bondTermE cfgC1 nvL 2 3 = .ok (-(1/125)) := by
    norm_num [bondTermE, bondForceE, bondStretchE, qdiv, hksi 2 3 (by omega) (by omega),
      List.getD, hnvL, cfgC1_c, abs_of_nonneg, abs_of_nonpos,
      show cfgC1.s0 = 1/50 from rfl, show cfgC1.vol = 1 from rfl, hg, bindE_ok]
  have t30 : bondTermE cfgC1 nvL 3 0 = .ok (1/350) := by
    norm_num [bondTermE, bondForceE, bondStretchE, qdiv, hksi 3 0 (by omega) (by omega),
      List.getD, hnvL, cfgC1_c, abs_of_nonneg, abs_of_nonpos,
      show cfgC1.s0 = 1/50 from rfl, show cfgC1.vol = 1 from rfl, hg, bindE_ok]
  have t31 : bondTermE cfgC1 nvL 3 1 = .ok (1/250) := by
    norm_num [bondTermE, bondForceE, bondStretchE, qdiv, hksi 3 1 (by omega) (by omega),
      List.getD, hnvL, cfgC1_c, abs_of_nonneg, abs_of_nonpos,
      show cfgC1.s0 = 1/50 from rfl, show cfgC1.vol = 1 from rfl, hg, bindE_ok]
  have t32 : bondTermE cfgC1 nvL 3 2 = .ok (1/100) := by
    norm_num [bondTermE, bondForceE, bondStretchE, qdiv, hksi 3 2 (by omega) (by omega),
      List.getD, hnvL, cfgC1_c, abs_of_nonneg, abs_of_nonpos,
      show cfgC1.s0 = 1/50 from rfl, show cfgC1.vol = 1 from rfl, hg, bindE_ok]
  have t34 : bondTermE cfgC1 nvL 3 4 = .ok (1/100) := by
    norm_num [bondTermE, bondForceE, bondStretchE, qdiv, hksi 3 4 (by omega) (by omega),
      List.getD, hnvL, cfgC1_c, abs_of_nonneg, abs_of_nonpos,
      show cfgC1.s0 = 1/50 from rfl, show cfgC1.vol = 1 from rfl, hg, bindE_ok]
  have t43 : bondTermE cfgC1 nvL 4 3 = .ok (-(1/125)) := by
    norm_num [bondTermE, bondForceE, bondStretchE, qdiv, hksi 4 3 (by omega) (by omega),
      List.getD, hnvL, cfgC1_c, abs_of_nonneg, abs_of_nonpos,
      show cfgC1.s0 = 1/50 from rfl, show cfgC1.vol = 1 from rfl, hg, bindE_ok]
  have t53 : bondTermE cfgC1 nvL 5 3 = .ok (-(1/250)) := by
    norm_num [bondTermE, bondForceE, bondStretchE, qdiv, hksi 5 3 (by omega) (by omega),
      List.getD, hnvL, cfgC1_c, abs_of_nonneg, abs_of_nonpos,
      show cfgC1.s0 = 1/50 from rfl, show cfgC1.vol = 1 from rfl, hg, bindE_ok]
  -- the eta-zero pairs
  have z01 : bondTermE cfgC1 nvL 0 1 = .ok 0 := by
    apply hz 0 1 (by omega) (by omega) (by omega)
    · rw [hksi 0 1 (by omega) (by omega)]; norm_num [List.getD]
    · norm_num [hnvL, List.getD]
  have z02 : bondTermE cfgC1 nvL 0 2 = .ok 0 := by
    apply hz 0 2 (by omega) (by omega) (by omega)
    · rw [hksi 0 2 (by omega) (by omega)]; norm_num [List.getD]
    · norm_num [hnvL, List.getD]
  have z10 : bondTermE cfgC1 nvL 1 0 = .ok 0 := by
    apply hz 1 0 (by omega) (by omega) (by omega)
    · rw [hksi 1 0 (by omega) (by omega)]; norm_num [List.getD]
    · norm_num [hnvL, List.getD]
  have z12 : bondTermE cfgC1 nvL 1 2 = .ok 0 := by
    apply hz 1 2 (by omega) (by omega) (by omega)
    · rw [hksi 1 2 (by omega) (by omega)]; norm_num [List.getD]
    · norm_num [hnvL, List.getD]
  have z20 : bondTermE cfgC1 nvL 2 0 = .ok 0 := by
    apply hz 2 0 (by omega) (by omega) (by omega)
    · rw [hksi 2 0 (by omega) (by omega)]; norm_num [List.getD]
    · norm_num [hnvL, List.getD]
  have z21 : bondTermE cfgC1 nvL 2 1 = .ok 0 := by
    apply hz 2 1 (by omega) (by omega) (by omega)
    · rw [hksi 2 1 (by omega) (by omega)]; norm_num [List.getD]
    · norm_num [hnvL, List.getD]
  have z24 : bondTermE cfgC1 nvL 2 4 = .ok 0 := by
    apply hz 2 4 (by omega) (by omega) (by omega)
    · rw [hksi 2 4 (by omega) (by omega)]; norm_num [List.getD]
    · norm_num [hnvL, List.getD]
  have z40 : bondTermE cfgC1 nvL 4 0 = .ok 0 := by
    apply hz 4 0 (by omega) (by omega) (by omega)
    · rw [hksi 4 0 (by omega) (by omega)]; norm_num [List.getD]
    · norm_num [hnvL, List.getD]
  have z41 : bondTermE cfgC1 nvL 4 1 = .ok 0 := by
    apply hz 4 1 (by omega) (by omega) (by omega)
    · rw [hksi 4 1 (by omega) (by omega)]; norm_num [List.getD]
    · norm_num [hnvL, List.getD]
  have z42 : bondTermE cfgC1 nvL 4 2 = .ok 0 := by
    apply hz 4 2 (by omega) (by omega) (by omega)
    · rw [hksi 4 2 (by omega) (by omega)]; norm_num [List.getD]
    · norm_num [hnvL, List.getD]
  have z50 : bondTermE cfgC1 nvL 5 0 = .ok 0 := by
    apply hz 5 0 (by omega) (by omega) (by omega)
    · rw [hksi 5 0 (by omega) (by omega)]; norm_num [List.getD]
    · norm_num [hnvL, List.getD]
  have z51 : bondTermE cfgC1 nvL 5 1 = .ok 0 := by
    apply hz 5 1 (by omega) (by omega) (by omega)
    · rw [hksi 5 1 (by omega) (by omega)]; norm_num [List.getD]
    · norm_num [hnvL, List.getD]
  have z52 : bondTermE cfgC1 nvL 5 2 = .ok 0 := by
    apply hz 5 2 (by omega) (by omega) (by omega)
    · rw [hksi 5 2 (by omega) (by omega)]; norm_num [List.getD]
    · norm_num [hnvL, List.getD]
  have z60 : bondTermE cfgC1 nvL 6 0 = .ok 0 := by
    apply hz 6 0 (by omega) (by omega) (by omega)
    · rw [hksi 6 0 (by omega) (by omega)]; norm_num [List.getD]
    · norm_num [hnvL, List.getD]
  have z61 : bondTermE cfgC1 nvL 6 1 = .ok 0 := by
    apply hz 6 1 (by omega) (by omega) (by omega)
    · rw [hksi 6 1 (by omega) (by omega)]; norm_num [List.getD]
    · norm_num [hnvL, List.getD]
  have z62 : bondTermE cfgC1 nvL 6 2 = .ok 0 := by
    apply hz 6 2 (by omega) (by omega) (by omega)
    · rw [hksi 6 2 (by omega) (by omega)]; norm_num [List.getD]
    · norm_num [hnvL, List.getD]
  have hA0 : accelE cfgC1 nvL 0 = .ok 0 := by
    simp only [accelE]
    rw [p0]
    simp only [sumListE, z01, z02, bindE_ok, qdiv, hrho]
    norm_num
  have hA1 : accelE cfgC1 nvL 1 = .ok (-(1/250)) := by
    simp only [accelE]
    rw [p1]
    simp only [sumListE, z10, z12, t13, bindE_ok, qdiv, hrho]
    norm_num
  have hA2 : accelE cfgC1 nvL 2 = .ok (-(1/125)) := by
    simp only [accelE]
    rw [p2]
    simp only [sumListE, z20, z21, t23, z24, bindE_ok, qdiv, hrho]
    norm_num
  have hA3 : accelE cfgC1 nvL 3 = .ok (47/1750) := by
    simp only [accelE]
    rw [p3]
    simp only [sumListE, t30, t31, t32, t34, bindE_ok, qdiv, hrho]
    norm_num
  have hA4 : accelE cfgC1 nvL 4 = .ok (-(1/125)) := by
    simp only [accelE]
    rw [p4]
    simp only [sumListE, z40, z41, z42, t43, bindE_ok, qdiv, hrho]
    norm_num
  have hA5 : accelE cfgC1 nvL 5 = .ok (-(1/250)) := by
    simp only [accelE]
    rw [p5]
    simp only [sumListE, z50, z51, z52, t53, bindE_ok, qdiv, hrho]
    norm_num
  have hA6 : accelE cfgC1 nvL 6 = .ok 0 := by
    simp only [accelE]
    rw [p6]
    simp only [sumListE, z60, z61, z62, bindE_ok, qdiv, hrho]
    norm_num
  refine ⟨nodeValuesE_geom cfgC1 rfl rfl 0 (1/50) (hget 0 (by omega)),
    nodeValuesE_geom cfgC1 rfl rfl 1 (1/50) (hget 1 (by omega)), ?_⟩
  rw [accelFieldE, show cfgC1.nx = 7 from rfl,
    show List.range 7 = [0, 1, 2, 3, 4, 5, 6] from rfl]
  simp only [collectE, hA0, hA1, hA2, hA3, hA4, hA5, hA6, bindE_ok]

lemma cfgC1_run1 :
    runToE cfgC1 1 = .ok ([[0, 0, 0, 0, 0, 0, 0]],
      ⟨[0, -(1/250), -(1/125), 47/1750, -(1/125), -(1/250), 0],
       [0, 0, 0, 0, 0, 0, 0]⟩) := by
  obtain ⟨hnv0, _, hacc⟩ := cfgC1_eval
  have hzero : (initState cfgC1).curr = ([0, 0, 0, 0, 0, 0, 0] : List ℚ) := rfl
  have hstep := stepE_eq cfgC1 0 (initState cfgC1) _ _ hnv0 hacc
  rw [show runToE cfgC1 1 = (runToE cfgC1 0).bind
      (fun pr => (stepE cfgC1 0 pr.2).bind
        (fun qr => .ok (pr.1 ++ [qr.1], qr.2))) from rfl,
    show runToE cfgC1 0 = .ok ([], initState cfgC1) from rfl, bindE_ok', hstep, bindE_ok']
  rw [show cfgC1.nx = 7 from rfl, show List.range 7 = [0, 1, 2, 3, 4, 5, 6] from rfl]
  rw [hzero, show (initState cfgC1).prev = ([0, 0, 0, 0, 0, 0, 0] : List ℚ) from rfl]
  norm_num [List.getD, show cfgC1.del_T = 1 from rfl]

lemma cfgC1_overwrite :
    overwriteCurrE cfgC1 1 [0, -(1/250), -(1/125), 47/1750, -(1/125), -(1/250), 0] =
      .ok [1/50, 1/50, 1/50, 47/1750, 1/50, 1/50, 1/50] := by
  have hget : cfgC1.u_applied.get? 1 = some (1/50) := by
    rw [uApplied_get?_phase, show cfgC1.time_steps = 150 from rfl,
      show cfgC1.u0 = 1/50 from rfl]
    norm_num [show (150 : ℕ) / 3 = 50 from rfl]
  obtain ⟨h0, h1, h2, h3, h4, h5, h6⟩ := inBoundary_geom cfgC1 rfl rfl
  rw [overwriteCurrE, show cfgC1.nx = 7 from rfl,
    show List.range 7 = [0, 1, 2, 3, 4, 5, 6] from rfl]
  simp only [collectE, h0, h1, h2, h3, h4, h5, h6, hget, if_true, if_false,
    Bool.false_eq_true, bindE_ok, List.getD]
  rfl

lemma cfgC1_claim_accel :
    accelE cfgC1 [1/50, 1/50, 1/50, 47/1750, 1/50, 1/50, 1/50] 3 =
      .ok (-(282/30625)) := by
  obtain ⟨_, _, p2c, p3c, _, _, _⟩ := pairs_geom cfgC1 rfl rfl
  have hksi := bondKsi_geom cfgC1 rfl rfl
  set ovL : List ℚ := [1/50, 1/50, 1/50, 47/1750, 1/50, 1/50, 1/50] with hovL
  have t30 : bondTermE cfgC1 ovL 3 0 = .ok (-(6/6125)) := by
    norm_num [bondTermE, bondForceE, bondStretchE, qdiv, hksi 3 0 (by omega) (by omega),
      List.getD, hovL, cfgC1_c, abs_of_nonneg, abs_of_nonpos,
      show cfgC1.s0 = 1/50 from rfl, show cfgC1.vol = 1 from rfl,
      show cfgC1.g = 0 from rfl, bindE_ok]
  have t31 : bondTermE cfgC1 ovL 3 1 = .ok (-(6/4375)) := by
    norm_num [bondTermE, bondForceE, bondStretchE, qdiv, hksi 3 1 (by omega) (by omega),
      List.getD, hovL, cfgC1_c, abs_of_nonneg, abs_of_nonpos,
      show cfgC1.s0 = 1/50 from rfl, show cfgC1.vol = 1 from rfl,
      show cfgC1.g = 0 from rfl, bindE_ok]
  have t32 : bondTermE cfgC1 ovL 3 2 = .ok (-(3/875)) := by
    norm_num [bondTermE, bondForceE, bondStretchE, qdiv, hksi 3 2 (by omega) (by omega),
      List.getD, hovL, cfgC1_c, abs_of_nonneg, abs_of_nonpos,
      show cfgC1.s0 = 1/50 from rfl, show cfgC1.vol = 1 from rfl,
      show cfgC1.g = 0 from rfl, bindE_ok]
  have t34 : bondTermE cfgC1 ovL 3 4 = .ok (-(3/875)) := by
    norm_num [bondTermE, bondForceE, bondStretchE, qdiv, hksi 3 4 (by omega) (by omega),
      List.getD, hovL, cfgC1_c, abs_of_nonneg, abs_of_nonpos,
      show cfgC1.s0 = 1/50 from rfl, show cfgC1.vol = 1 from rfl,
      show cfgC1.g = 0 from rfl, bindE_ok]
  simp only [accelE]
  rw [p3c]
  simp only [sumListE, t30, t31, t32, t34, bindE_ok, qdiv,
    show cfgC1.rho = 1 from rfl]
  norm_num

/-- C1 is refuted on the code: at step 1 of `cfgC1`'s run the
acceleration the claim prescribes for interior point 3 (forces from
`u_current` overwritten with the boundary value at boundary-layer
points) differs from the acceleration the step actually computes
(`u_future[3] - 2 u_current[3] + u_previous[3] = acceleration[3]`,
since `del_T = 1`): the code evaluates forces on `node_values`, which is
zero, not `u_current`, at the interior point. -/
theorem c1_counterexample :
    ((runToE cfgC1 1).bind (fun pr =>
        (overwriteCurrE cfgC1 1 pr.2.curr).bind (fun ov => accelE cfgC1 ov 3)))
      ≠ (runToE cfgC1 1).bind (fun pr => accelObs cfgC1 1 pr.2 3) := by
  obtain ⟨_, hnv1, hacc⟩ := cfgC1_eval
  rw [cfgC1_run1, bindE_ok', bindE_ok', cfgC1_overwrite, bindE_ok', cfgC1_claim_accel]
  rw [accelObs, stepE_eq cfgC1 1 _ _ _ hnv1 hacc, mapE_ok]
  rw [show cfgC1.nx = 7 from rfl, show List.range 7 = [0, 1, 2, 3, 4, 5, 6] from rfl]
  norm_num [List.getD, show cfgC1.del_T = 1 from rfl]

/-- C2 (amended): for every point `i` the net force density accumulates
one bond term per loop position `p` in `{0, ..., k_i - 1} \ {i}`, where
`k_i` is the number of points within the horizon of `i` (`i` itself
included); the positions are not neighbor ids, and each term uses
`ksi = |trunc(x_p) - x_i|` with the candidate's coordinate truncated
toward zero, not the reference distance `|x_p - x_i|`. -/
theorem c2_sum_over_loop_positions (cfg : Config) (nv : List ℚ) (x : ℕ) :
    sumTermE cfg nv x = (collectE (bondTermE cfg nv x) (pairs cfg x)).map List.sum
    ∧ pairs cfg x = (List.range (cfg.neighborCount x)).filter (fun p => p ≠ x)
    ∧ cfg.neighborCount x = ((List.range cfg.nx).filter
        (fun j => decide (|cfg.node j - cfg.node x| ≤ cfg.horizon))).length
    ∧ ∀ p, bondKsi cfg x p = |((truncQ (cfg.node p) : ℤ) : ℚ) - cfg.node x| := by
  refine ⟨?_, rfl, rfl, fun p => rfl⟩
  rw [sumTermE, sumListE_collect]
  cases hc : collectE (bondTermE cfg nv x) (pairs cfg x) with
  | error e => rw [mapE_err, mapE_err]
  | ok ts =>
      rw [mapE_ok, mapE_ok]
      norm_num

/-- C2 is refuted on the code at the source configuration: point 6's
evaluated loop positions are `[0, 1, 2]`, not its within-horizon
neighbors `[4, 5]`; position 0 lies at reference distance 15, far
beyond the horizon, while in-range neighbor 5 contributes nothing; the
code's `ksi` for the pair `(6, 0)` is `29/2`, not the reference
distance 15; and at step 0's field the code's net sum (three body-force
increments) differs from the claim's sum (two). -/
theorem c2_counterexample :
    pairs sourceConfig 6 = [0, 1, 2]
    ∧ claimPairs sourceConfig 6 = [4, 5]
    ∧ claimKsi sourceConfig 6 0 = 15
    ∧ ¬(claimKsi sourceConfig 6 0 ≤ sourceConfig.horizon)
    ∧ bondKsi sourceConfig 6 0 = 29/2
    ∧ sumTermE sourceConfig [1/50, 1/50, 1/50, 0, 1/50, 1/50, 1/50] 6 =
        .ok (3 * sourceConfig.g)
    ∧ claimSumE sourceConfig [1/50, 1/50, 1/50, 0, 1/50, 1/50, 1/50] 6 =
        .ok (2 * sourceConfig.g)
    ∧ (3 * sourceConfig.g : ℚ) ≠ 2 * sourceConfig.g := by
  obtain ⟨_, _, _, _, _, _, p6⟩ := pairs_geom sourceConfig rfl rfl
  have hnodes := nodes_geom sourceConfig rfl rfl
  have hksi := bondKsi_geom sourceConfig rfl rfl
  have hclaimPairs : claimPairs sourceConfig 6 = [4, 5] := by
    norm_num [claimPairs, Config.node, hnodes, horizon_geom sourceConfig rfl rfl,
      show sourceConfig.nx = 7 from rfl, List.range_succ, List.filter,
      abs_of_nonneg, abs_of_nonpos]
  refine ⟨p6, hclaimPairs, ?_, ?_, ?_, ?_, ?_, ?_⟩
  · norm_num [claimKsi, Config.node, hnodes, List.getD, abs_of_nonpos]
  · norm_num [claimKsi, Config.node, hnodes, horizon_geom sourceConfig rfl rfl,
      List.getD, abs_of_nonpos]
  · rw [hksi 6 0 (by omega) (by omega)]
    norm_num [List.getD, abs_of_nonpos]
  · rw [sumTermE, p6]
    rw [sumListE_const (bondTermE sourceConfig [1/50, 1/50, 1/50, 0, 1/50, 1/50, 1/50] 6)
      sourceConfig.g [0, 1, 2] ?_ 0]
    · norm_num
    · intro p hp
      fin_cases hp <;>
        (apply bondTermE_etaZero
         · rw [hksi 6 _ (by omega) (by omega)]
           norm_num [List.getD, abs_of_nonpos]
         · norm_num [List.getD])
  · rw [claimSumE, hclaimPairs]
    rw [sumListE_const (claimTermE sourceConfig [1/50, 1/50, 1/50, 0, 1/50, 1/50, 1/50] 6)
      sourceConfig.g [4, 5] ?_ 0]
    · norm_num
    · intro j hj
      fin_cases hj <;>
        (apply claimTermE_etaZero
         · norm_num [claimKsi, Config.node, hnodes, List.getD, abs_of_nonpos]
         · norm_num [List.getD])
  · norm_num [show sourceConfig.g = 98/10000000000 from rfl]

/-- C6 (amended, and counterexample context): in the source
configuration the boundary layer contains three points at each end —
ids 0, 1, 2 on the left and 4, 5, 6 on the right (node 2 sits at
distance 5 ≤ horizon ≈ 6.459 from the left end) — not two; those six
points receive `+0.02` at steps 0–49, `-0.02` at steps 50–99 and `0` at
steps 100–149, and the interior point 3 never receives the boundary
value. -/
theorem c6_three_point_boundary_layer (n : ℕ) (hn : n < 150) :
    (List.range 7).filter (fun i => inBoundary sourceConfig i) = [0, 1, 2, 4, 5, 6]
    ∧ (n < 50 →
        nodeValuesE sourceConfig n = .ok [1/50, 1/50, 1/50, 0, 1/50, 1/50, 1/50])
    ∧ (50 ≤ n → n < 100 →
        nodeValuesE sourceConfig n =
          .ok [-(1/50), -(1/50), -(1/50), 0, -(1/50), -(1/50), -(1/50)])
    ∧ (100 ≤ n → nodeValuesE sourceConfig n = .ok [0, 0, 0, 0, 0, 0, 0]) := by
  have hts : sourceConfig.time_steps = 150 := rfl
  have hu0 : sourceConfig.u0 = 1/50 := rfl
  refine ⟨?_, ?_, ?_, ?_⟩
  · obtain ⟨h0, h1, h2, h3, h4, h5, h6⟩ := inBoundary_geom sourceConfig rfl rfl
    simp [List.range_succ, List.filter, h0, h1, h2, h3, h4, h5, h6]
  · intro h50
    apply nodeValuesE_geom sourceConfig rfl rfl
    rw [uApplied_get?_phase, hts, hu0]
    norm_num [show (150 : ℕ) / 3 = 50 from rfl, h50]
  · intro h50 h100
    apply nodeValuesE_geom sourceConfig rfl rfl
    rw [uApplied_get?_phase, hts, hu0]
    rw [if_neg (by omega), if_pos (by norm_num [show (150 : ℕ) / 3 = 50 from rfl]; omega)]
  · intro h100
    apply nodeValuesE_geom sourceConfig rfl rfl
    rw [uApplied_get?_phase, hts, hu0]
    rw [if_neg (by norm_num [show (150 : ℕ) / 3 = 50 from rfl]; omega),
      if_neg (by norm_num [show (150 : ℕ) / 3 = 50 from rfl]; omega),
      if_pos (by norm_num [show (150 : ℕ) / 3 = 50 from rfl]; omega)]

/-- Witness for the C6 theorem at step 0. -/
theorem c6_witness :
    (0 < 150 ∧ 0 < 50) ∧
    nodeValuesE sourceConfig 0 = .ok [1/50, 1/50, 1/50, 0, 1/50, 1/50, 1/50] :=
  ⟨⟨by norm_num, by norm_num⟩,
    (c6_three_point_boundary_layer 0 (by norm_num)).2.1 (by norm_num)⟩

/-- C6 is refuted as stated: at step 0 the third point from the left
end (id 2, coordinate -5/2, distance 5 from the end) also receives the
applied value 0.02, so the receiving set is the six points
{0, 1, 2, 4, 5, 6}, not the two nearest points of each end. -/
theorem c6_counterexample :
    nodeValuesE sourceConfig 0 = .ok [1/50, 1/50, 1/50, 0, 1/50, 1/50, 1/50]
    ∧ inBoundary sourceConfig 2 = true
    ∧ sourceConfig.node 2 = -(5/2)
    ∧ |sourceConfig.node 2 - (-(sourceConfig.bar_length / 2))| = 5
    ∧ sourceConfig.horizon = 4521/700 := by
  have hget : sourceConfig.u_applied.get? 0 = some (1/50) := by
    rw [uApplied_get?_phase, show sourceConfig.time_steps = 150 from rfl,
      show sourceConfig.u0 = 1/50 from rfl]
    norm_num [show (150 : ℕ) / 3 = 50 from rfl]
  refine ⟨nodeValuesE_geom sourceConfig rfl rfl 0 (1/50) hget,
    (inBoundary_geom sourceConfig rfl rfl).2.2.1, ?_, ?_,
    horizon_geom sourceConfig rfl rfl⟩
  · norm_num [Config.node, nodes_geom sourceConfig rfl rfl, List.getD]
  · norm_num [Config.node, nodes_geom sourceConfig rfl rfl, List.getD,
      show sourceConfig.bar_length = 15 from rfl, abs_of_nonneg]

lemma stepE_cfgTS_ok (ts k : ℕ) (st : PDState) (hk : k < 3 * (ts / 3)) :
    ∃ r, stepE (cfgTS ts) k st = .ok r := by
  obtain ⟨v, hv, hval⟩ := uApplied_get?_some (cfgTS ts) k
    (by rw [show (cfgTS ts).time_steps = ts from rfl]; exact hk)
  have hvlt : |v| < 2 := by
    rw [show (cfgTS ts).u0 = 1/50 from rfl] at hval
    rcases hval with rfl | rfl | rfl <;> norm_num [abs_of_nonneg, abs_of_nonpos, abs_neg]
  obtain ⟨acc, hacc⟩ := accelField_geom_ok (cfgTS ts) v rfl rfl
    (by rw [show (cfgTS ts).rho = 8/1000000 from rfl]; norm_num) hvlt
  exact ⟨_, stepE_eq (cfgTS ts) k st _ _ (nodeValuesE_geom (cfgTS ts) rfl rfl k v hv) hacc⟩

lemma runE_cfgTS_err (ts : ℕ) (h : ts % 3 ≠ 0) : runE (cfgTS ts) = .error .idx := by
  have hlt : 3 * (ts / 3) < ts := by omega
  have hfail : ∀ st, stepE (cfgTS ts) (3 * (ts / 3)) st = .error .idx := by
    intro st
    apply stepE_err
    apply nodeValuesE_geom_err (cfgTS ts) rfl rfl
    apply uApplied_get?_none
    rw [show (cfgTS ts).time_steps = ts from rfl]
  have herr := runToE_err_after (cfgTS ts) (3 * (ts / 3)) .idx
    (fun k st hk => stepE_cfgTS_ok ts k st hk) hfail ts hlt
  rw [runE, show (cfgTS ts).time_steps = ts from rfl, herr, mapE_err]

/-- C10: when `time_steps` is not divisible by 3, the boundary sequence
has only `3*(time_steps/3)` entries while the loop runs `time_steps`
iterations, so the run fails with an out-of-range read (at step
`3*(time_steps/3)`, the first step whose `u_applied[n]` read is out of
bounds) instead of completing. -/
theorem c10_oob_when_not_div3 (ts : ℕ) (h : ts % 3 ≠ 0) :
    runE (cfgTS ts) = .error .idx :=
  runE_cfgTS_err ts h

/-- Witness for C10 at `time_steps = 4`. -/
theorem c10_witness : (4 : ℕ) % 3 ≠ 0 ∧ runE (cfgTS 4) = .error .idx :=
  ⟨by norm_num, c10_oob_when_not_div3 4 (by norm_num)⟩

/-- C8 is refuted as stated: with `time_steps = 4` (all other parameters
the source's) the run fails with an `IndexError` on the boundary
sequence — a failure that is not a division by zero on a zero-length
bond, so a zero-length bond is not the only failure mode. -/
theorem c8_counterexample :
    runE (cfgTS 4) = .error .idx ∧ Err.idx ≠ Err.div :=
  ⟨runE_cfgTS_err 4 (by norm_num), by decide⟩

/-- C8 (amended): an out-of-range read of the boundary sequence is a
failure mode as well (exercised whenever `time_steps` is not divisible
by 3); on the source configuration itself no zero-length bond is ever
evaluated (every evaluated pair has `ksi ≠ 0`) and every one of the 150
steps completes. -/
theorem c8_run_completes :
    (runE sourceConfig).isOk = true
    ∧ ((List.range 7).all
        (fun x => (pairs sourceConfig x).all (fun p => bondKsi sourceConfig x p != 0)))
      = true := by
  constructor
  · obtain ⟨recs, st, hrun⟩ := runToE_ok sourceConfig 150
      (fun k st hk => stepE_cfgTS_ok 150 k st (by omega))
    rw [runE, show sourceConfig.time_steps = 150 from rfl, hrun, mapE_ok]
    rfl
  · obtain ⟨p0, p1, p2, p3, p4, p5, p6⟩ := pairs_geom sourceConfig rfl rfl
    have hksi := bondKsi_geom sourceConfig rfl rfl
    rw [show List.range 7 = [0, 1, 2, 3, 4, 5, 6] from rfl]
    simp only [List.all_cons, List.all_nil, p0, p1, p2, p3, p4, p5, p6,
      Bool.and_eq_true, bne_iff_ne, ne_eq]
    refine ⟨⟨?_, ?_, trivial⟩, ⟨?_, ?_, ?_, trivial⟩, ⟨?_, ?_, ?_, ?_, trivial⟩,
      ⟨?_, ?_, ?_, ?_, trivial⟩, ⟨?_, ?_, ?_, ?_, trivial⟩, ⟨?_, ?_, ?_, ?_, trivial⟩,
      ⟨?_, ?_, ?_, trivial⟩, trivial⟩ <;>
      (rw [hksi _ _ (by omega) (by omega)]; norm_num [List.getD, abs_of_nonneg, abs_of_nonpos])

lemma accelField_zeroField (cfg : Config) (hL : cfg.bar_length = 15)
    (hn : cfg.nx = 7) (hrho : cfg.rho ≠ 0) :
    accelFieldE cfg [0, 0, 0, 0, 0, 0, 0] =
      .ok [2 * cfg.g / cfg.rho, 3 * cfg.g / cfg.rho, 4 * cfg.g / cfg.rho,
        4 * cfg.g / cfg.rho, 4 * cfg.g / cfg.rho, 4 * cfg.g / cfg.rho,
        3 * cfg.g / cfg.rho] := by
  obtain ⟨p0, p1, p2, p3, p4, p5, p6⟩ := pairs_geom cfg hL hn
  have hksi := bondKsi_geom cfg hL hn
  have hterm : ∀ x p : ℕ, x < 7 → p < 7 → p ≠ x →
      bondTermE cfg [0, 0, 0, 0, 0, 0, 0] x p = .ok cfg.g := by
    intro x p hx hp hne
    apply bondTermE_etaZero
    · rw [hksi x p hx hp]
      interval_cases x <;> interval_cases p <;>
        first
          | exact absurd rfl hne
          | norm_num [List.getD, abs_of_nonneg, abs_of_nonpos]
    · rcases p with _ | _ | _ | _ | _ | _ | _ | p <;>
        rcases x with _ | _ | _ | _ | _ | _ | _ | x <;> norm_num [List.getD]
  have hA : ∀ (x q : ℕ) (qs : List ℕ), x < 7 → (∀ p ∈ q :: qs, p < 7 ∧ p ≠ x) →
      pairs cfg x = q :: qs →
      accelE cfg [0, 0, 0, 0, 0, 0, 0] x = qdiv (0 + (q :: qs).length * cfg.g) cfg.rho := by
    intro x q qs hx hl hpl
    have hsum := sumListE_const (bondTermE cfg [0, 0, 0, 0, 0, 0, 0] x) cfg.g (q :: qs)
      (fun p hp => hterm x p hx (hl p hp).1 (hl p hp).2) 0
    simp only [accelE]
    rw [hpl]
    simp only [hsum, bindE_ok]
  have e0 : accelE cfg [0, 0, 0, 0, 0, 0, 0] 0 = .ok (2 * cfg.g / cfg.rho) := by
    rw [hA 0 1 [2] (by omega) (by intro p hp; fin_cases hp <;> omega) p0, qdiv,
      if_neg hrho]
    congr 1
    simp only [List.length_cons, List.length_nil]
    push_cast
    ring
  have e1 : accelE cfg [0, 0, 0, 0, 0, 0, 0] 1 = .ok (3 * cfg.g / cfg.rho) := by
    rw [hA 1 0 [2, 3] (by omega) (by intro p hp; fin_cases hp <;> omega) p1, qdiv,
      if_neg hrho]
    congr 1
    simp only [List.length_cons, List.length_nil]
    push_cast
    ring
  have e2 : accelE cfg [0, 0, 0, 0, 0, 0, 0] 2 = .ok (4 * cfg.g / cfg.rho) := by
    rw [hA 2 0 [1, 3, 4] (by omega) (by intro p hp; fin_cases hp <;> omega) p2, qdiv,
      if_neg hrho]
    congr 1
    simp only [List.length_cons, List.length_nil]
    push_cast
    ring
  have e3 : accelE cfg [0, 0, 0, 0, 0, 0, 0] 3 = .ok (4 * cfg.g / cfg.rho) := by
    rw [hA 3 0 [1, 2, 4] (by omega) (by intro p hp; fin_cases hp <;> omega) p3, qdiv,
      if_neg hrho]
    congr 1
    simp only [List.length_cons, List.length_nil]
    push_cast
    ring
  have e4 : accelE cfg [0, 0, 0, 0, 0, 0, 0] 4 = .ok (4 * cfg.g / cfg.rho) := by
    rw [hA 4 0 [1, 2, 3] (by omega) (by intro p hp; fin_cases hp <;> omega) p4, qdiv,
      if_neg hrho]
    congr 1
    simp only [List.length_cons, List.length_nil]
    push_cast
    ring
  have e5 : accelE cfg [0, 0, 0, 0, 0, 0, 0] 5 = .ok (4 * cfg.g / cfg.rho) := by
    rw [hA 5 0 [1, 2, 3] (by omega) (by intro p hp; fin_cases hp <;> omega) p5, qdiv,
      if_neg hrho]
    congr 1
    simp only [List.length_cons, List.length_nil]
    push_cast
    ring
  have e6 : accelE cfg [0, 0, 0, 0, 0, 0, 0] 6 = .ok (3 * cfg.g / cfg.rho) := by
    rw [hA 6 0 [1, 2] (by omega) (by intro p hp; fin_cases hp <;> omega) p6, qdiv,
      if_neg hrho]
    congr 1
    simp only [List.length_cons, List.length_nil]
    push_cast
    ring
  rw [accelFieldE, hn, show List.range 7 = [0, 1, 2, 3, 4, 5, 6] from rfl]
  simp only [collectE, e0, e1, e2, e3, e4, e5, e6, bindE_ok]

lemma cfg5_accel : accelFieldE cfg5 [0, 0, 0, 0, 0, 0, 0] =
    .ok [49/20000, 147/40000, 49/10000, 49/10000, 49/10000, 49/10000, 147/40000] := by
  rw [accelField_zeroField cfg5 rfl rfl
    (by rw [show cfg5.rho = 8/1000000 from rfl]; norm_num)]
  norm_num [show cfg5.g = 98/10000000000 from rfl, show cfg5.rho = 8/1000000 from rfl]

lemma cfg5_nv (n : ℕ) (hn : n < 150) : nodeValuesE cfg5 n = .ok [0, 0, 0, 0, 0, 0, 0] := by
  obtain ⟨v, hv, hval⟩ := uApplied_get?_some cfg5 n
    (by rw [show cfg5.time_steps = 150 from rfl]; omega)
  have hv0 : v = 0 := by
    rw [show cfg5.u0 = 0 from rfl] at hval
    rcases hval with rfl | rfl | rfl <;> norm_num
  subst hv0
  exact nodeValuesE_geom cfg5 rfl rfl n 0 hv

/-- C5 is refuted on the code: with `Young_modulus = 0` every bond force
vanishes (`c = 0`) and the boundary displacement is zero at every one of
the 150 steps, yet the displacement does not stay zero — the constant
body-force term, accumulated once per evaluated neighbor, drives every
point away from zero from step 1 on (point 0 is recorded at `49/2000000`
at step 1, and interior point 3, with four evaluated pairs, at
`49/1000000`). -/
theorem c5_counterexample :
    Config.c cfg5 = 0
    ∧ cfg5.u_applied = List.replicate 150 0
    ∧ runToE cfg5 2 = .ok ([[0, 0, 0, 0, 0, 0, 0],
        [49/2000000, 147/4000000, 49/1000000, 49/1000000, 49/1000000, 49/1000000,
          147/4000000]],
        ⟨[147/2000000, 441/4000000, 147/1000000, 147/1000000, 147/1000000, 147/1000000,
           441/4000000],
         [49/2000000, 147/4000000, 49/1000000, 49/1000000, 49/1000000, 49/1000000,
          147/4000000]⟩) := by
  refine ⟨?_, ?_, ?_⟩
  · rw [Config.c, Config.K, show cfg5.Young_modulus = 0 from rfl]
    norm_num
  · rw [uApplied_eq, show cfg5.time_steps = 150 from rfl, show cfg5.u0 = 0 from rfl]
    rw [show (150 : ℕ) / 3 = 50 from rfl, neg_zero,
      show (150 : ℕ) = 50 + 50 + 50 from rfl, List.replicate_add, List.replicate_add]
  · have hzero : (initState cfg5).curr = ([0, 0, 0, 0, 0, 0, 0] : List ℚ) := rfl
    have hzero' : (initState cfg5).prev = ([0, 0, 0, 0, 0, 0, 0] : List ℚ) := rfl
    have hstep0 := stepE_eq cfg5 0 (initState cfg5) _ _ (cfg5_nv 0 (by omega)) cfg5_accel
    have hfut0 : (List.range cfg5.nx).map
        (fun i => ([49/20000, 147/40000, 49/10000, 49/10000, 49/10000, 49/10000,
          147/40000] : List ℚ).getD i 0 * cfg5.del_T ^ 2
          + 2 * (initState cfg5).curr.getD i 0 - (initState cfg5).prev.getD i 0) =
        [49/2000000, 147/4000000, 49/1000000, 49/1000000, 49/1000000, 49/1000000,
          147/4000000] := by
      rw [show cfg5.nx = 7 from rfl, show List.range 7 = [0, 1, 2, 3, 4, 5, 6] from rfl,
        hzero, hzero']
      norm_num [List.getD, show cfg5.del_T = 1/10 from rfl]
    rw [hfut0] at hstep0
    have hstep1 := stepE_eq cfg5 1
      ⟨[49/2000000, 147/4000000, 49/1000000, 49/1000000, 49/1000000, 49/1000000,
         147/4000000],
       [0, 0, 0, 0, 0, 0, 0]⟩ _ _ (cfg5_nv 1 (by omega)) cfg5_accel
    have hfut1 : (List.range cfg5.nx).map
        (fun i => ([49/20000, 147/40000, 49/10000, 49/10000, 49/10000, 49/10000,
          147/40000] : List ℚ).getD i 0 * cfg5.del_T ^ 2
          + 2 * (([49/2000000, 147/4000000, 49/1000000, 49/1000000, 49/1000000,
              49/1000000, 147/4000000] : List ℚ)).getD i 0
          - (([0, 0, 0, 0, 0, 0, 0] : List ℚ)).getD i 0) =
        [147/2000000, 441/4000000, 147/1000000, 147/1000000, 147/1000000, 147/1000000,
          441/4000000] := by
      rw [show cfg5.nx = 7 from rfl, show List.range 7 = [0, 1, 2, 3, 4, 5, 6] from rfl]
      norm_num [List.getD, show cfg5.del_T = 1/10 from rfl]
    rw [hfut1] at hstep1
    have h1 : runToE cfg5 1 = .ok ([[0, 0, 0, 0, 0, 0, 0]],
        ⟨[49/2000000, 147/4000000, 49/1000000, 49/1000000, 49/1000000, 49/1000000,
           147/4000000],
         [0, 0, 0, 0, 0, 0, 0]⟩) := by
      rw [show runToE cfg5 1 = (runToE cfg5 0).bind
          (fun pr => (stepE cfg5 0 pr.2).bind
            (fun qr => .ok (pr.1 ++ [qr.1], qr.2))) from rfl,
        show runToE cfg5 0 = .ok ([], initState cfg5) from rfl,
        bindE_ok', hstep0, bindE_ok']
      rfl
    rw [show runToE cfg5 2 = (runToE cfg5 1).bind
        (fun pr => (stepE cfg5 1 pr.2).bind
          (fun qr => .ok (pr.1 ++ [qr.1], qr.2))) from rfl,
      h1, bindE_ok', hstep1, bindE_ok']
    rfl

/-- C5 (amended): when additionally the body-force constant is zero
(the source hard-codes it at `9.8e-9`), zero bond forces and zero
boundary displacement do keep the displacement of every point exactly
zero at every one of the 150 steps. -/
theorem c5_zero_input_needs_zero_bodyforce :
    Config.c cfg5z = 0
    ∧ cfg5z.u_applied = List.replicate 150 0
    ∧ runE cfg5z = .ok (List.replicate 150 (List.replicate 7 0)) := by
  refine ⟨?_, ?_, ?_⟩
  · rw [Config.c, Config.K, show cfg5z.Young_modulus = 0 from rfl]
    norm_num
  · rw [uApplied_eq, show cfg5z.time_steps = 150 from rfl, show cfg5z.u0 = 0 from rfl]
    rw [show (150 : ℕ) / 3 = 50 from rfl, neg_zero,
      show (150 : ℕ) = 50 + 50 + 50 from rfl, List.replicate_add, List.replicate_add]
  · have hnv : ∀ n : ℕ, n < 150 → nodeValuesE cfg5z n = .ok [0, 0, 0, 0, 0, 0, 0] := by
      intro n hn
      obtain ⟨v, hv, hval⟩ := uApplied_get?_some cfg5z n
        (by rw [show cfg5z.time_steps = 150 from rfl]; omega)
      have hv0 : v = 0 := by
        rw [show cfg5z.u0 = 0 from rfl] at hval
        rcases hval with rfl | rfl | rfl <;> norm_num
      subst hv0
      exact nodeValuesE_geom cfg5z rfl rfl n 0 hv
    have hacc : accelFieldE cfg5z [0, 0, 0, 0, 0, 0, 0] = .ok [0, 0, 0, 0, 0, 0, 0] := by
      rw [accelField_zeroField cfg5z rfl rfl
        (by rw [show cfg5z.rho = 8/1000000 from rfl]; norm_num)]
      norm_num [show cfg5z.g = 0 from rfl]
    have hstep : ∀ n : ℕ, n < 150 →
        stepE cfg5z n ⟨[0, 0, 0, 0, 0, 0, 0], [0, 0, 0, 0, 0, 0, 0]⟩ =
          .ok ([0, 0, 0, 0, 0, 0, 0],
            ⟨[0, 0, 0, 0, 0, 0, 0], [0, 0, 0, 0, 0, 0, 0]⟩) := by
      intro n hn
      have h := stepE_eq cfg5z n ⟨[0, 0, 0, 0, 0, 0, 0], [0, 0, 0, 0, 0, 0, 0]⟩ _ _
        (hnv n hn) hacc
      rw [h]
      norm_num [show cfg5z.nx = 7 from rfl,
        show List.range 7 = [0, 1, 2, 3, 4, 5, 6] from rfl, List.getD]
    have hrun : ∀ m : ℕ, m ≤ 150 → runToE cfg5z m =
        .ok (List.replicate m [0, 0, 0, 0, 0, 0, 0],
          ⟨[0, 0, 0, 0, 0, 0, 0], [0, 0, 0, 0, 0, 0, 0]⟩) := by
      intro m
      induction m with
      | zero => intro _; rfl
      | succ k ih =>
          intro hk
          rw [show runToE cfg5z (k + 1) = (runToE cfg5z k).bind
              (fun pr => (stepE cfg5z k pr.2).bind
                (fun qr => .ok (pr.1 ++ [qr.1], qr.2))) from rfl,
            ih (by omega), bindE_ok', hstep k (by omega), bindE_ok',
            ← List.replicate_succ']
    rw [runE, show cfg5z.time_steps = 150 from rfl, hrun 150 le_rfl, mapE_ok]
    rfl

/-- C3: the claim (bond damage is permanent) is right per the spec's
design notes, and the code is wrong: the damage factor `mu` is
recomputed each step from the current stretch alone, so a broken bond
heals. At `cfg3` (source configuration with `u0 = 0.1`), the bond of
interior point 3 and loop position 2 has stretch `1/20 > s0 = 1/50` at
step 0 (so it is damaged there), yet at step 50, when the boundary value
flips sign and its stretch drops to `-1/20 ≤ s0`, the bond contributes
the non-zero force `-c/20` again. -/
theorem c3_bond_heals :
    cfg3.u_applied.get? 0 = some (1/10)
    ∧ nodeValuesE cfg3 0 = .ok [1/10, 1/10, 1/10, 0, 1/10, 1/10, 1/10]
    ∧ (2 ∈ pairs cfg3 3)
    ∧ bondStretchE cfg3 [1/10, 1/10, 1/10, 0, 1/10, 1/10, 1/10] 3 2 = .ok (1/20)
    ∧ cfg3.s0 < 1/20
    ∧ cfg3.u_applied.get? 50 = some (-(1/10))
    ∧ nodeValuesE cfg3 50 =
        .ok [-(1/10), -(1/10), -(1/10), 0, -(1/10), -(1/10), -(1/10)]
    ∧ bondForceE cfg3 [-(1/10), -(1/10), -(1/10), 0, -(1/10), -(1/10), -(1/10)] 3 2 =
        .ok (-(Config.c cfg3) / 20)
    ∧ Config.c cfg3 ≠ 0 := by
  have hts : cfg3.time_steps = 150 := rfl
  have hu0 : cfg3.u0 = 1/10 := rfl
  have hget0 : cfg3.u_applied.get? 0 = some (1/10) := by
    rw [uApplied_get?_phase, hts, hu0]
    norm_num [show (150 : ℕ) / 3 = 50 from rfl]
  have hget50 : cfg3.u_applied.get? 50 = some (-(1/10)) := by
    rw [uApplied_get?_phase, hts, hu0]
    norm_num [show (150 : ℕ) / 3 = 50 from rfl]
  have hksi := bondKsi_geom cfg3 rfl rfl
  obtain ⟨_, _, _, p3, _, _, _⟩ := pairs_geom cfg3 rfl rfl
  refine ⟨hget0, nodeValuesE_geom cfg3 rfl rfl 0 (1/10) hget0, ?_, ?_, ?_, hget50,
    nodeValuesE_geom cfg3 rfl rfl 50 (-(1/10)) hget50, ?_, ?_⟩
  · rw [p3]
    norm_num
  · rw [bondStretchE, hksi 3 2 (by omega) (by omega)]
    norm_num [qdiv, List.getD, abs_of_nonneg, abs_of_nonpos]
  · rw [show cfg3.s0 = 1/50 from rfl]
    norm_num
  · rw [bondForceE, bondStretchE, hksi 3 2 (by omega) (by omega)]
    norm_num [qdiv, List.getD, abs_of_nonneg, abs_of_nonpos, bindE_ok,
      show cfg3.s0 = 1/50 from rfl, show cfg3.vol = 1 from rfl]
    ring
  · rw [Config.c, Config.K, horizon_geom cfg3 rfl rfl,
      show cfg3.Young_modulus = 1957855/100 from rfl, show cfg3.nu = 3/10 from rfl,
      npPi]
    norm_num

lemma cfg5z_hyps :
    nodeValuesE cfg5z 0 = .ok [0, 0, 0, 0, 0, 0, 0]
    ∧ accelFieldE cfg5z [0, 0, 0, 0, 0, 0, 0] = .ok [0, 0, 0, 0, 0, 0, 0] := by
  constructor
  · obtain ⟨v, hv, hval⟩ := uApplied_get?_some cfg5z 0
      (by rw [show cfg5z.time_steps = 150 from rfl]; omega)
    have hv0 : v = 0 := by
      rw [show cfg5z.u0 = 0 from rfl] at hval
      rcases hval with rfl | rfl | rfl <;> norm_num
    subst hv0
    exact nodeValuesE_geom cfg5z rfl rfl 0 0 hv
  · rw [accelField_zeroField cfg5z rfl rfl
      (by rw [show cfg5z.rho = 8/1000000 from rfl]; norm_num)]
    norm_num [show cfg5z.g = 0 from rfl]

/-- Witness for C4's theorem at step 0 of `cfg5z`. -/
theorem c4_witness :
    (runToE cfg5z 0 = .ok ([], initState cfg5z)
      ∧ nodeValuesE cfg5z 0 = .ok [0, 0, 0, 0, 0, 0, 0]
      ∧ accelFieldE cfg5z [0, 0, 0, 0, 0, 0, 0] = .ok [0, 0, 0, 0, 0, 0, 0])
    ∧ (runToE cfg5z 1 = .ok ([] ++ [(initState cfg5z).curr],
        ⟨(List.range cfg5z.nx).map
          (fun i => ([0, 0, 0, 0, 0, 0, 0] : List ℚ).getD i 0 * cfg5z.del_T ^ 2
            + 2 * (initState cfg5z).curr.getD i 0 - (initState cfg5z).prev.getD i 0),
         (initState cfg5z).curr⟩)
      ∧ ([] : List (List ℚ)).length = 0) :=
  ⟨⟨rfl, cfg5z_hyps.1, cfg5z_hyps.2⟩,
    c4_integrator_record_rotate cfg5z 0 [] (initState cfg5z)
      [0, 0, 0, 0, 0, 0, 0] [0, 0, 0, 0, 0, 0, 0] rfl cfg5z_hyps.1 cfg5z_hyps.2⟩

/-- Witness for C9's theorem: the zero state and an arbitrary nonzero
state give the same acceleration observable for point 3 at step 0. -/
theorem c9_witness :
    3 < sourceConfig.nx
    ∧ accelObs sourceConfig 0 (initState sourceConfig) 3 =
        accelObs sourceConfig 0 ⟨[1, 2, 3, 4, 5, 6, 7], [7, 6, 5, 4, 3, 2, 1]⟩ 3 :=
  ⟨by norm_num [show sourceConfig.nx = 7 from rfl],
    c9_accel_ignores_displacement_state sourceConfig 0 (initState sourceConfig)
      ⟨[1, 2, 3, 4, 5, 6, 7], [7, 6, 5, 4, 3, 2, 1]⟩ 3
      (by norm_num [show sourceConfig.nx = 7 from rfl])⟩
